import Mathlib

/-!
Verification development for the AutoInput automation engine
(src/src-tauri/src/lib.rs).

The engine's commands (`start_action`, `stop_action`, `is_running`) operate
on a mutex-guarded `InputState`; the background execution unit runs one of
four action strategies and reports through a completion flag and a terminal
event.  We embed:

* `AutoInputSettings` and `calc_interval_ms` (u64 arithmetic, modelled on
  `Nat` with explicit wrap-around at `2 ^ 64` where the source uses `u64`
  operations);
* the command-level state machine: `InputState`, `start_action`,
  `stop_action`, `is_running`.  The shared atomic flags are modelled by
  their current boolean values; the `JoinHandle` by an `Option Unit`
  recording presence.  `start_action` additionally returns a boolean
  recording whether a new execution unit was spawned;
* the spawned execution unit's body (`threadBody`) as a trace semantics:
  given the settings snapshot, the per-load values of the cancellation flag
  (`stop : Nat → Bool`, indexed by how many loads have happened), and fuel,
  it yields `some trace` when the loop exits within the fuel budget and
  `none` otherwise.  Input-injection calls, sleeps, the completion-flag
  store and the terminal event emission are the trace events.  The
  mouse-drag-hold branch's per-tick displacement and sleep are computed by
  the source in `f64` floating point; `threadBody` takes them as parameters
  (`dx dy : Int`, `sleepUs : Nat`), so theorems about that branch hold for
  every value the floating-point controller can produce.
-/

/-- Settings snapshot (struct `AutoInputSettings` in the source).  The `u64`
fields are `Nat` (values below `2 ^ 64`), `i32` fields are `Int`, and the
two `f64` drag-direction components are `Float` (they are consumed only by
the floating-point velocity controller, which stays outside the embedding). -/
structure AutoInputSettings where
  hours : Nat
  minutes : Nat
  seconds : Nat
  milliseconds : Nat
  mouse_button : String
  click_type : String
  repeat_mode : String
  repeat_count : Nat
  location_mode : String
  fixed_x : Int
  fixed_y : Int
  action_type : String
  mouse_mode : String
  drag_speed : Int
  drag_direction_x : Float
  drag_direction_y : Float
  hold_key : String
  key_mode : String

/-- Wrap-around of Rust `u64` arithmetic. -/
def wrap64 (n : Nat) : Nat := n % 2 ^ 64

/-- `calc_interval_ms` from the source:
`s.milliseconds + s.seconds * 1000 + s.minutes * 60_000 + s.hours * 3_600_000`,
with every `u64` operation wrapping at `2 ^ 64` as in the compiled code. -/
def calc_interval_ms (s : AutoInputSettings) : Nat :=
  wrap64 (wrap64 (wrap64 (s.milliseconds + wrap64 (s.seconds * 1000))
    + wrap64 (s.minutes * 60000)) + wrap64 (s.hours * 3600000))

/-- The nested wraps collapse to one wrap of the exact sum. -/
theorem calc_interval_ms_eq (s : AutoInputSettings) :
    calc_interval_ms s =
      (s.milliseconds + s.seconds * 1000 + s.minutes * 60000
        + s.hours * 3600000) % 2 ^ 64 := by
  unfold calc_interval_ms wrap64
  omega

/-- `is_hold_mode` as computed in `start_action`. -/
def is_hold_mode (s : AutoInputSettings) : Prop :=
  (s.action_type = "click" ∧ s.mouse_mode = "hold")
    ∨ (s.action_type = "hold-key" ∧ s.key_mode = "hold")

instance (s : AutoInputSettings) : Decidable (is_hold_mode s) := by
  unfold is_hold_mode; infer_instance

/-- The engine's guarded state (struct `InputState`).  `stop` holds the
current value of the cancellation flag when one is allocated, `done` the
current value of the completion flag, and `handle` records whether a
`JoinHandle` is stored. -/
structure InputState where
  stop : Option Bool
  done : Bool
  handle : Option Unit

/-- `InputState::default()`: no flags, completion flag true, no handle. -/
def InputState.default : InputState :=
  { stop := none, done := true, handle := none }

/-- `is_running`: a handle is stored and the completion flag is false. -/
def is_running (st : InputState) : Bool :=
  st.handle.isSome && !st.done

/-- `start_action`.  Returns the command's result, the state after the call,
and whether a new execution unit was spawned.  Mirrors the source: reap a
finished unit if the completion flag is set; return `Ok` doing nothing if a
handle is (still) present; validate the interval, then the hold key; on
success install fresh flags and a new handle. -/
def start_action (st : InputState) (s : AutoInputSettings) :
    Except String Unit × InputState × Bool :=
  let st₁ := if st.done then { st with handle := none, stop := none } else st
  if st₁.handle.isSome then (.ok (), st₁, false)
  else
    let interval := calc_interval_ms s
    if interval = 0 ∧ ¬ is_hold_mode s then
      (.error "Interval must be greater than 0", st₁, false)
    else if s.action_type = "hold-key" ∧ s.hold_key = "" then
      (.error "No key selected", st₁, false)
    else
      (.ok (), { stop := some false, done := false, handle := some () }, true)

/-- `stop_action`: set the cancellation flag if present, join and drop the
handle, clear the stored flag; always returns `Ok`. -/
def stop_action (st : InputState) : Except String Unit × InputState :=
  (.ok (), { stop := none, done := st.done, handle := none })

/-! ## Execution-unit trace semantics -/

/-- One observable step of the spawned execution unit: an input-injection
call (carrying the arguments handed to the OS layer), a sleep, the
completion-flag store, or the terminal event emission.  Key events carry the
symbolic key name passed to `resolve_vk`. -/
inductive Ev where
  | moveAbs (x y : Int)
  | moveRel (dx dy : Int)
  | mouseClick (button : String)
  | mouseDown (button : String)
  | mouseUp (button : String)
  | keyDown (key : String)
  | keyUp (key : String)
  | keyPress (key : String)
  | sleepMs (ms : Nat)
  | sleepUs (us : Nat)
  | setDone
  | emitStopped
  deriving DecidableEq, Repr

/-- Key-hold polling loop: while the cancellation flag (read `i`-th load)
is unset, sleep 50 ms.  `none` when the fuel runs out before the flag is
observed set. -/
def holdPollLoop (stop : Nat → Bool) : Nat → Nat → Option (List Ev)
  | 0, _ => none
  | fuel + 1, i =>
    if stop i then some []
    else (holdPollLoop stop fuel (i + 1)).map (fun tr => Ev.sleepMs 50 :: tr)

/-- Mouse-drag-hold loop: while the cancellation flag is unset, issue a
relative move when the displacement is non-zero, then sleep `sleepUs`
microseconds. -/
def dragLoop (stop : Nat → Bool) (dx dy : Int) (sleepUs : Nat) :
    Nat → Nat → Option (List Ev)
  | 0, _ => none
  | fuel + 1, i =>
    if stop i then some []
    else
      (dragLoop stop dx dy sleepUs fuel (i + 1)).map (fun tr =>
        (if dx ≠ 0 ∨ dy ≠ 0 then [Ev.moveRel dx dy] else [])
          ++ Ev.sleepUs sleepUs :: tr)

/-- The per-iteration body of the click-repeat / key-repeat loop: for
clicks, an optional absolute move to the fixed location followed by one or
two clicks; for key taps, one key press. -/
def iterBody (s : AutoInputSettings) : List Ev :=
  if s.action_type = "click" then
    (if s.location_mode = "fixed" then [Ev.moveAbs s.fixed_x s.fixed_y] else [])
      ++ List.replicate (if s.click_type = "double" then 2 else 1)
          (Ev.mouseClick s.mouse_button)
  else
    [Ev.keyPress s.hold_key]

/-- Click-repeat / key-repeat loop, parametrised by the per-iteration body
`acts` (the thread captures the settings once; see `iterBody`).  `rc` is the
`repeat_count` local of the thread (0 when `repeat_mode` is not `"count"`),
`count` the iteration counter.  Each iteration: check the cancellation flag,
perform the body, increment the counter, break when `rc > 0 ∧ count + 1 ≥ rc`
(after the action, before sleeping), otherwise sleep the interval and
continue. -/
def repeatLoop (acts : List Ev) (interval rc : Nat) (stop : Nat → Bool) :
    Nat → Nat → Nat → Option (List Ev)
  | 0, _, _ => none
  | fuel + 1, count, i =>
    if stop i then some []
    else if rc > 0 ∧ count + 1 ≥ rc then some acts
    else
      (repeatLoop acts interval rc stop fuel (count + 1) (i + 1)).map (fun tr =>
        acts ++ Ev.sleepMs interval :: tr)

/-- The `repeat_count` local computed at the top of the spawned thread. -/
def effRepeatCount (s : AutoInputSettings) : Nat :=
  if s.repeat_mode = "count" then s.repeat_count else 0

/-- The whole body of the spawned execution unit, as the trace of events it
produces.  `stop i` is the value the `i`-th load of the cancellation flag
observes; `fuel` bounds the number of loop iterations the semantics is
allowed to unfold (`none` = the loop was still running).  `dx`, `dy` and
`sleepUs` are the outputs of the floating-point velocity controller, taken
as parameters (see the file header). -/
def threadBody (s : AutoInputSettings) (dx dy : Int) (sleepUs : Nat)
    (stop : Nat → Bool) (fuel : Nat) : Option (List Ev) :=
  if s.action_type ≠ "click" ∧ s.key_mode = "hold" then
    (holdPollLoop stop fuel 0).map (fun tr =>
      Ev.keyDown s.hold_key :: tr
        ++ [Ev.keyUp s.hold_key, Ev.setDone, Ev.emitStopped])
  else if s.action_type = "click" ∧ s.mouse_mode = "hold" then
    (dragLoop stop dx dy sleepUs fuel 0).map (fun tr =>
      (if s.location_mode = "fixed" then [Ev.moveAbs s.fixed_x s.fixed_y] else [])
        ++ Ev.mouseDown s.mouse_button :: tr
        ++ [Ev.mouseUp s.mouse_button, Ev.setDone, Ev.emitStopped])
  else
    (repeatLoop (iterBody s) (calc_interval_ms s) (effRepeatCount s) stop fuel 0 0).map
      (fun tr => tr ++ [Ev.setDone, Ev.emitStopped])

/-- `AutoInputSettings::default()` from the source. -/
def AutoInputSettings.default : AutoInputSettings :=
  { hours := 0, minutes := 0, seconds := 0, milliseconds := 20,
    mouse_button := "left", click_type := "single",
    repeat_mode := "infinite", repeat_count := 10,
    location_mode := "current", fixed_x := 0, fixed_y := 0,
    action_type := "click", mouse_mode := "click",
    drag_speed := 5, drag_direction_x := 0.0, drag_direction_y := -1.0,
    hold_key := "e", key_mode := "hold" }

/-! ## Helper lemmas -/

/-- If the engine is not running, then after the lazy reap at the top of
`start_action` no handle is stored. -/
theorem reap_handle_none (st : InputState) (h : is_running st = false) :
    (if st.done then { st with handle := none, stop := none } else st).handle.isSome
      = false := by
  unfold is_running at h
  by_cases hd : st.done
  · simp [hd]
  · simp only [hd, if_false]
    simpa [hd] using h

/-! # Claim theorems -/

/-- C1.  If `start` is called while a previous run's execution unit is still
actively running (handle stored, completion flag false), it returns success,
changes no state, spawns no second execution unit, and `is_running` is true
before and (hence) after the call. -/
theorem start_idempotent_while_running (st : InputState) (s : AutoInputSettings)
    (hh : st.handle.isSome = true) (hd : st.done = false) :
    start_action st s = (.ok (), st, false) ∧ is_running st = true := by
  constructor
  · unfold start_action
    simp [hd, hh]
  · simp [is_running, hh, hd]

/-- Witness for C1: a concrete running state. -/
theorem start_idempotent_while_running_witness :
    start_action ⟨some false, false, some ()⟩ AutoInputSettings.default
        = (.ok (), ⟨some false, false, some ()⟩, false)
      ∧ is_running ⟨some false, false, some ()⟩ = true :=
  start_idempotent_while_running ⟨some false, false, some ()⟩
    AutoInputSettings.default rfl rfl

/-- C2.  `stop_action` always returns success; afterwards no execution unit
is stored and `is_running` reports false, unconditionally; called on an idle
state (no cancellation flag, no handle) it leaves the state exactly
unchanged. -/
theorem stop_action_spec (st : InputState) :
    (stop_action st).1 = .ok ()
      ∧ (stop_action st).2.handle = none
      ∧ is_running (stop_action st).2 = false
      ∧ (st.stop = none → st.handle = none → (stop_action st).2 = st) := by
  refine ⟨rfl, rfl, rfl, fun hs hh => ?_⟩
  cases st
  simp_all [stop_action]

/-- Witness for C2: stopping the idle default state is a no-op that reports
not running. -/
theorem stop_action_spec_witness :
    is_running (stop_action InputState.default).2 = false
      ∧ (stop_action InputState.default).2 = InputState.default :=
  ⟨(stop_action_spec InputState.default).2.2.1,
   (stop_action_spec InputState.default).2.2.2 rfl rfl⟩

/-- C5 (amended).  Whenever the exact sum
`ms + s*1000 + m*60000 + h*3600000` fits in 64 bits, `calc_interval_ms`
returns exactly that sum; on overflow the `u64` arithmetic wraps, so the
unrestricted identity fails (see the counterexample). -/
theorem calc_interval_ms_exact (s : AutoInputSettings)
    (h : s.milliseconds + s.seconds * 1000 + s.minutes * 60000
        + s.hours * 3600000 < 2 ^ 64) :
    calc_interval_ms s
      = s.milliseconds + s.seconds * 1000 + s.minutes * 60000
        + s.hours * 3600000 := by
  rw [calc_interval_ms_eq]
  exact Nat.mod_eq_of_lt h

/-- Witness for C5: the spec's example `h=0, m=1, s=30, ms=500 → 90500`. -/
theorem calc_interval_ms_exact_witness :
    calc_interval_ms { AutoInputSettings.default with
        hours := 0, minutes := 1, seconds := 30, milliseconds := 500 }
      = 90500 := by
  have h := calc_interval_ms_exact
    { AutoInputSettings.default with
        hours := 0, minutes := 1, seconds := 30, milliseconds := 500 }
    (by norm_num)
  simpa using h

/-- Counterexample for C5 as stated: at `hours = 2 ^ 57` (and the other
duration fields 0) the 64-bit multiplication wraps to 0, which differs from
the claimed exact value `2 ^ 57 * 3600000`. -/
theorem calc_interval_ms_overflow_cx :
    calc_interval_ms { AutoInputSettings.default with
        hours := 2 ^ 57, minutes := 0, seconds := 0, milliseconds := 0 } = 0
      ∧ (2 ^ 57 : Nat) * 3600000 ≠ 0 := by
  constructor
  · rw [calc_interval_ms_eq]
    norm_num
  · norm_num

/-- C4.  When the engine is not already running, `start_action` fails with
`InvalidInterval` exactly when the derived interval is 0 and the settings
are not a hold mode; in particular interval 0 with
`actionType=click, mouseMode=hold` succeeds. -/
theorem start_invalid_interval_iff (st : InputState) (s : AutoInputSettings)
    (hidle : is_running st = false) :
    ((start_action st s).1 = .error "Interval must be greater than 0"
        ↔ calc_interval_ms s = 0 ∧ ¬ is_hold_mode s)
      ∧ (s.action_type = "click" → s.mouse_mode = "hold" →
          (start_action st s).1 = .ok ()) := by
  have hreap := reap_handle_none st hidle
  constructor
  · unfold start_action
    simp only [hreap, Bool.false_eq_true, if_false]
    by_cases hv : calc_interval_ms s = 0 ∧ ¬ is_hold_mode s
    · simp [hv]
    · simp only [hv, if_false, iff_false]
      by_cases hk : s.action_type = "hold-key" ∧ s.hold_key = ""
      · simp [hk]
      · simp [hk]
  · intro hc hm
    unfold start_action
    have hv : ¬ (calc_interval_ms s = 0 ∧ ¬ is_hold_mode s) := by
      rintro ⟨-, hnh⟩
      exact hnh (Or.inl ⟨hc, hm⟩)
    have hk : ¬ (s.action_type = "hold-key" ∧ s.hold_key = "") := by
      rintro ⟨hak, -⟩
      rw [hc] at hak
      exact absurd hak (by decide)
    simp [hreap, hv, hk]

/-- Witness for C4: `actionType=click, mouseMode=click, interval=0` fails
with `InvalidInterval`, and the same settings with `mouseMode=hold`
succeed. -/
theorem start_invalid_interval_iff_witness :
    (start_action InputState.default
        { AutoInputSettings.default with milliseconds := 0 }).1
      = .error "Interval must be greater than 0"
      ∧ (start_action InputState.default
          { AutoInputSettings.default with
              milliseconds := 0, mouse_mode := "hold" }).1
        = .ok () :=
  ⟨(start_invalid_interval_iff InputState.default
      { AutoInputSettings.default with milliseconds := 0 } rfl).1.mpr
      (by constructor
          · rfl
          · decide),
   (start_invalid_interval_iff InputState.default
      { AutoInputSettings.default with
          milliseconds := 0, mouse_mode := "hold" } rfl).2 rfl rfl⟩

/-- C3 (amended).  When the engine is not already running and
`actionType=hold-key` with an empty `holdKey`, `start_action` fails with
`MissingKey` provided the interval validation passes first, i.e. when
`keyMode=hold` or the derived interval is non-zero; when `keyMode ≠ hold`
and the interval is 0, the `InvalidInterval` check fires first instead (see
the counterexample). -/
theorem start_missing_key (st : InputState) (s : AutoInputSettings)
    (hidle : is_running st = false)
    (ha : s.action_type = "hold-key") (hk : s.hold_key = "")
    (hpass : s.key_mode = "hold" ∨ calc_interval_ms s ≠ 0) :
    (start_action st s).1 = .error "No key selected" := by
  have hreap := reap_handle_none st hidle
  have hv : ¬ (calc_interval_ms s = 0 ∧ ¬ is_hold_mode s) := by
    rintro ⟨hz, hnh⟩
    rcases hpass with hkm | hnz
    · exact hnh (Or.inr ⟨ha, hkm⟩)
    · exact hnz hz
  unfold start_action
  simp [hreap, hv, ha, hk]

/-- Witness for C3: `holdKey=""`, `keyMode=hold`, all duration fields 0
still yields `MissingKey`. -/
theorem start_missing_key_witness :
    (start_action InputState.default
        { AutoInputSettings.default with
            action_type := "hold-key", key_mode := "hold", hold_key := "",
            milliseconds := 0 }).1
      = .error "No key selected" :=
  start_missing_key InputState.default
    { AutoInputSettings.default with
        action_type := "hold-key", key_mode := "hold", hold_key := "",
        milliseconds := 0 }
    rfl rfl rfl (Or.inl rfl)

/-- Counterexample for C3 as stated: with `actionType=hold-key`,
`holdKey=""`, `keyMode=tap` and interval 0, `start_action` fails with
`InvalidInterval`, not `MissingKey` — so the failure is not independent of
the interval and `keyMode`. -/
theorem start_missing_key_cx :
    (start_action InputState.default
        { AutoInputSettings.default with
            action_type := "hold-key", key_mode := "tap", hold_key := "",
            milliseconds := 0 }).1
      = .error "Interval must be greater than 0"
      ∧ (Except.error "Interval must be greater than 0"
          : Except String Unit) ≠ .error "No key selected" := by
  constructor
  · rfl
  · intro h
    exact absurd (Except.error.inj h) (by decide)

/-- C9 (amended).  When `start_action` returns a validation error it spawns
nothing, the engine was observably idle (`is_running` false) before the
call and remains so after it, and the stored state is unchanged whenever
the completion flag was not set (i.e. except for the lazy reap of an
already-finished unit, which the counterexample shows can occur). -/
theorem start_error_observably_idle (st : InputState) (s : AutoInputSettings)
    (e : String) (herr : (start_action st s).1 = .error e) :
    is_running st = false
      ∧ is_running (start_action st s).2.1 = false
      ∧ (start_action st s).2.2 = false
      ∧ (st.done = false → (start_action st s).2.1 = st) := by
  have hh : (if st.done then { st with handle := none, stop := none }
      else st).handle.isSome = false := by
    by_contra hcon
    rw [Bool.not_eq_false] at hcon
    unfold start_action at herr
    simp [hcon] at herr
  have hstate : (start_action st s).2.1
        = (if st.done then { st with handle := none, stop := none } else st)
      ∧ (start_action st s).2.2 = false := by
    unfold start_action at herr ⊢
    simp only [hh, Bool.false_eq_true, if_false] at herr ⊢
    by_cases hv : calc_interval_ms s = 0 ∧ ¬ is_hold_mode s
    · simp [hv]
    · by_cases hk : s.action_type = "hold-key" ∧ s.hold_key = ""
      · simp [hv, hk]
      · simp [hv, hk] at herr
  have hrun : is_running st = false := by
    unfold is_running
    by_cases hd : st.done
    · simp [hd]
    · simp [hd] at hh
      simp [hh]
  refine ⟨hrun, ?_, hstate.2, ?_⟩
  · rw [hstate.1]
    unfold is_running
    by_cases hd : st.done
    · simp [hd]
    · simp [hd] at hh
      simp [hd, hh]
  · intro hd
    rw [hstate.1, if_neg (by simp [hd])]

/-- Witness for C9: a failed start on an idle state (no handle, completion
flag clear) leaves it idle and exactly unchanged. -/
theorem start_error_observably_idle_witness :
    is_running (start_action ⟨none, false, none⟩
        { AutoInputSettings.default with milliseconds := 0 }).2.1 = false
      ∧ (start_action ⟨none, false, none⟩
          { AutoInputSettings.default with milliseconds := 0 }).2.1
        = ⟨none, false, none⟩ := by
  have h := start_error_observably_idle ⟨none, false, none⟩
    { AutoInputSettings.default with milliseconds := 0 }
    "Interval must be greater than 0" rfl
  exact ⟨h.2.1, h.2.2.2 rfl⟩

/-- Counterexample for C9 as stated: a failed `start` called while a
finished unit is still stored (completion flag set, handle present) reaps
it — the stored state after the failed call differs from the state before
it. -/
theorem start_error_state_change_cx :
    (start_action ⟨some true, true, some ()⟩
        { AutoInputSettings.default with milliseconds := 0 }).1
      = .error "Interval must be greater than 0"
      ∧ (start_action ⟨some true, true, some ()⟩
          { AutoInputSettings.default with milliseconds := 0 }).2.1
        ≠ ⟨some true, true, some ()⟩ := by
  constructor
  · rfl
  · intro h
    have h2 := congrArg InputState.handle h
    rw [show (start_action ⟨some true, true, some ()⟩
        { AutoInputSettings.default with milliseconds := 0 }).2.1.handle
        = none from rfl] at h2
    exact Option.noConfusion h2

/-! ## Trace lemmas for the execution-unit body -/

/-- Every element of a repeat iteration body is an injection call
(absolute move, click, or key press). -/
theorem iterBody_mem (s : AutoInputSettings) {e : Ev} (h : e ∈ iterBody s) :
    (∃ x y, e = Ev.moveAbs x y) ∨ (∃ b, e = Ev.mouseClick b)
      ∨ ∃ k, e = Ev.keyPress k := by
  unfold iterBody at h
  split at h
  · rcases List.mem_append.1 h with h | h
    · split at h
      · simp at h
        exact Or.inl ⟨_, _, h⟩
      · simp at h
    · exact Or.inr (Or.inl ⟨_, List.eq_of_mem_replicate h⟩)
  · simp at h
    exact Or.inr (Or.inr ⟨_, h⟩)

/-- A repeat iteration body contains neither the completion-flag store nor
the terminal event. -/
theorem iterBody_no_terminal (s : AutoInputSettings) :
    (iterBody s).count Ev.setDone = 0 ∧ (iterBody s).count Ev.emitStopped = 0 := by
  constructor <;>
    · rw [List.count_eq_zero]
      intro hmem
      rcases iterBody_mem s hmem with ⟨_, _, h⟩ | ⟨_, h⟩ | ⟨_, h⟩ <;> simp at h

/-- The key-hold polling loop emits only sleeps. -/
theorem holdPollLoop_no_terminal (stop : Nat → Bool) :
    ∀ fuel i tr, holdPollLoop stop fuel i = some tr →
      tr.count Ev.setDone = 0 ∧ tr.count Ev.emitStopped = 0 := by
  intro fuel
  induction fuel with
  | zero =>
    intro i tr h
    exact absurd h (by simp [holdPollLoop])
  | succ n ih =>
    intro i tr h
    unfold holdPollLoop at h
    split at h
    · cases h
      simp
    · rw [Option.map_eq_some'] at h
      obtain ⟨tr', h1, h2⟩ := h
      have hn := ih (i + 1) tr' h1
      subst h2
      simp [List.count_cons, hn.1, hn.2]

/-- The drag loop emits only relative moves and sleeps. -/
theorem dragLoop_no_terminal (stop : Nat → Bool) (dx dy : Int) (us : Nat) :
    ∀ fuel i tr, dragLoop stop dx dy us fuel i = some tr →
      tr.count Ev.setDone = 0 ∧ tr.count Ev.emitStopped = 0 := by
  intro fuel
  induction fuel with
  | zero =>
    intro i tr h
    exact absurd h (by simp [dragLoop])
  | succ n ih =>
    intro i tr h
    unfold dragLoop at h
    split at h
    · cases h
      simp
    · rw [Option.map_eq_some'] at h
      obtain ⟨tr', h1, h2⟩ := h
      have hn := ih (i + 1) tr' h1
      subst h2
      by_cases hz : dx ≠ 0 ∨ dy ≠ 0 <;>
        simp [hz, List.count_append, List.count_cons, hn.1, hn.2]

/-- The repeat loop emits only its iteration bodies and sleeps. -/
theorem repeatLoop_no_terminal (acts : List Ev) (interval rc : Nat)
    (stop : Nat → Bool)
    (ha : acts.count Ev.setDone = 0 ∧ acts.count Ev.emitStopped = 0) :
    ∀ fuel c i tr, repeatLoop acts interval rc stop fuel c i = some tr →
      tr.count Ev.setDone = 0 ∧ tr.count Ev.emitStopped = 0 := by
  intro fuel
  induction fuel with
  | zero =>
    intro c i tr h
    exact absurd h (by simp [repeatLoop])
  | succ n ih =>
    intro c i tr h
    unfold repeatLoop at h
    split at h
    · cases h
      simp
    · split at h
      · cases h
        exact ha
      · rw [Option.map_eq_some'] at h
        obtain ⟨tr', h1, h2⟩ := h
        have hn := ih (c + 1) (i + 1) tr' h1
        subst h2
        simp [List.count_append, List.count_cons, ha.1, ha.2, hn.1, hn.2]

/-- C8.  Whatever the settings, the velocity-controller outputs and the
cancellation schedule, every terminating run of the execution unit stores
the completion flag exactly once and emits the terminal `action-stopped`
event exactly once — this covers all four strategies and both exit causes
(cancellation and repeat-count exhaustion). -/
theorem run_terminal_once (s : AutoInputSettings) (dx dy : Int) (us : Nat)
    (stop : Nat → Bool) (fuel : Nat) (tr : List Ev)
    (h : threadBody s dx dy us stop fuel = some tr) :
    tr.count Ev.setDone = 1 ∧ tr.count Ev.emitStopped = 1 := by
  unfold threadBody at h
  by_cases h1 : s.action_type ≠ "click" ∧ s.key_mode = "hold"
  · rw [if_pos h1, Option.map_eq_some'] at h
    obtain ⟨tr', hl, h2⟩ := h
    have hn := holdPollLoop_no_terminal stop fuel 0 tr' hl
    subst h2
    constructor <;> simp [List.count_append, List.count_cons, hn.1, hn.2]
  · rw [if_neg h1] at h
    by_cases h2 : s.action_type = "click" ∧ s.mouse_mode = "hold"
    · rw [if_pos h2, Option.map_eq_some'] at h
      obtain ⟨tr', hl, h3⟩ := h
      have hn := dragLoop_no_terminal stop dx dy us fuel 0 tr' hl
      subst h3
      by_cases hf : s.location_mode = "fixed" <;>
        constructor <;>
          simp [hf, List.count_append, List.count_cons, hn.1, hn.2]
    · rw [if_neg h2, Option.map_eq_some'] at h
      obtain ⟨tr', hl, h3⟩ := h
      have hn := repeatLoop_no_terminal (iterBody s) (calc_interval_ms s)
        (effRepeatCount s) stop (iterBody_no_terminal s) fuel 0 0 tr' hl
      subst h3
      constructor <;> simp [List.count_append, List.count_cons, hn.1, hn.2]

/-- Witness for C8: a key-hold run cancelled at the first poll. -/
theorem run_terminal_once_witness :
    [Ev.keyDown "e", Ev.keyUp "e", Ev.setDone, Ev.emitStopped].count Ev.setDone = 1
      ∧ [Ev.keyDown "e", Ev.keyUp "e", Ev.setDone,
          Ev.emitStopped].count Ev.emitStopped = 1 :=
  run_terminal_once
    { AutoInputSettings.default with action_type := "hold-key" }
    0 0 200 (fun _ => true) 1
    [Ev.keyDown "e", Ev.keyUp "e", Ev.setDone, Ev.emitStopped] rfl

/-! ## Repeat-count runs -/

/-- The trace the spec predicts for an uncancelled repeat-count run of `n`
iterations (without the terminal events): the iteration body, then a sleep
between consecutive iterations only — no sleep after the last body. -/
def specRepeatTrace (acts : List Ev) (interval : Nat) : Nat → List Ev
  | 0 => []
  | 1 => acts
  | n + 2 => acts ++ Ev.sleepMs interval :: specRepeatTrace acts interval (n + 1)

/-- With the cancellation flag never set and `c + m = rc`, the repeat loop
with `m ≥ 1` iterations of budget left terminates by count exhaustion and
produces exactly the predicted trace. -/
theorem repeatLoop_count_run (acts : List Ev) (interval rc : Nat) :
    ∀ m c i, 0 < m → c + m = rc →
      repeatLoop acts interval rc (fun _ => false) m c i
        = some (specRepeatTrace acts interval m) := by
  intro m
  induction m with
  | zero =>
    intro c i hpos _
    exact absurd hpos (by omega)
  | succ k ih =>
    intro c i hpos hsum
    unfold repeatLoop
    rw [if_neg (by simp)]
    cases k with
    | zero =>
      rw [if_pos ⟨by omega, by omega⟩]
      rfl
    | succ j =>
      rw [if_neg (by omega), ih (c + 1) (i + 1) (by omega) (by omega)]
      rfl

/-- The predicted trace has exactly `n - 1` sleeps when the iteration body
contains none. -/
theorem specRepeatTrace_count_sleep (acts : List Ev) (interval : Nat)
    (hns : Ev.sleepMs interval ∉ acts) :
    ∀ n, (specRepeatTrace acts interval n).count (Ev.sleepMs interval) = n - 1 := by
  intro n
  induction n with
  | zero => simp [specRepeatTrace]
  | succ k ih =>
    cases k with
    | zero =>
      simp [specRepeatTrace, List.count_eq_zero.mpr hns]
    | succ j =>
      have h0 : acts.count (Ev.sleepMs interval) = 0 := List.count_eq_zero.mpr hns
      show (acts ++ Ev.sleepMs interval :: specRepeatTrace acts interval (j + 1)).count
          (Ev.sleepMs interval) = j + 2 - 1
      rw [List.count_append, List.count_cons, ih, h0]
      simp

/-- The predicted trace performs `n` copies of the iteration body: counting
with any predicate that ignores sleeps multiplies by `n`. -/
theorem specRepeatTrace_countP (acts : List Ev) (interval : Nat) (p : Ev → Bool)
    (hp : p (Ev.sleepMs interval) = false) :
    ∀ n, (specRepeatTrace acts interval n).countP p = n * acts.countP p := by
  intro n
  induction n with
  | zero => simp [specRepeatTrace]
  | succ k ih =>
    cases k with
    | zero => simp [specRepeatTrace]
    | succ j =>
      show (acts ++ Ev.sleepMs interval :: specRepeatTrace acts interval (j + 1)).countP p
          = (j + 2) * acts.countP p
      rw [List.countP_append, List.countP_cons, ih, hp]
      simp
      ring

/-- The predicted trace ends with the iteration body: no sleep follows the
final action. -/
theorem specRepeatTrace_ends_with_acts (acts : List Ev) (interval : Nat) :
    ∀ n, 0 < n → ∃ pre, specRepeatTrace acts interval n = pre ++ acts := by
  intro n
  induction n with
  | zero =>
    intro h
    exact absurd h (by omega)
  | succ k ih =>
    intro _
    cases k with
    | zero => exact ⟨[], rfl⟩
    | succ j =>
      obtain ⟨pre, hpre⟩ := ih (by omega)
      refine ⟨acts ++ Ev.sleepMs interval :: pre, ?_⟩
      show acts ++ Ev.sleepMs interval :: specRepeatTrace acts interval (j + 1)
          = (acts ++ Ev.sleepMs interval :: pre) ++ acts
      rw [hpre]
      simp

/-- The input-injection calls a repeat iteration performs. -/
def isInjectAct : Ev → Bool
  | .moveAbs _ _ => true
  | .mouseClick _ => true
  | .keyPress _ => true
  | _ => false

/-- C6.  A click-repeat or key-repeat run with `repeatMode=count`,
`repeatCount = n ≥ 1` and a never-set cancellation flag terminates on its
own within `n` loop iterations, producing exactly the predicted trace:
`n` iteration bodies, `n - 1` sleeps (the count check happens after the
action and before the sleep, so no sleep follows the `n`-th body), the body
as the final actions, and then the completion-flag store and terminal
event. -/
theorem repeat_count_exact (s : AutoInputSettings) (dx dy : Int) (us : Nat)
    (n : Nat) (hmode : s.repeat_mode = "count") (hn : s.repeat_count = n)
    (h1 : 1 ≤ n)
    (hkh : ¬(s.action_type ≠ "click" ∧ s.key_mode = "hold"))
    (hmh : ¬(s.action_type = "click" ∧ s.mouse_mode = "hold")) :
    threadBody s dx dy us (fun _ => false) n
        = some (specRepeatTrace (iterBody s) (calc_interval_ms s) n
            ++ [Ev.setDone, Ev.emitStopped])
      ∧ (specRepeatTrace (iterBody s) (calc_interval_ms s) n).count
          (Ev.sleepMs (calc_interval_ms s)) = n - 1
      ∧ (specRepeatTrace (iterBody s) (calc_interval_ms s) n).countP isInjectAct
          = n * (iterBody s).countP isInjectAct
      ∧ ∃ pre, specRepeatTrace (iterBody s) (calc_interval_ms s) n
          = pre ++ iterBody s := by
  have hrc : effRepeatCount s = n := by
    simp [effRepeatCount, hmode, hn]
  refine ⟨?_, ?_, ?_, specRepeatTrace_ends_with_acts _ _ n h1⟩
  · unfold threadBody
    rw [if_neg hkh, if_neg hmh, hrc,
      repeatLoop_count_run (iterBody s) (calc_interval_ms s) n n 0 0 h1 (by omega)]
    rfl
  · apply specRepeatTrace_count_sleep
    intro hmem
    rcases iterBody_mem s hmem with ⟨_, _, h⟩ | ⟨_, h⟩ | ⟨_, h⟩ <;> simp at h
  · exact specRepeatTrace_countP _ _ _ rfl n

/-- Witness for C6: five single clicks at the default 20 ms interval, four
sleeps, then the terminal events — with no external stop. -/
theorem repeat_count_exact_witness :
    threadBody { AutoInputSettings.default with
        repeat_mode := "count", repeat_count := 5 } 0 0 200 (fun _ => false) 5
      = some [Ev.mouseClick "left", Ev.sleepMs 20, Ev.mouseClick "left",
          Ev.sleepMs 20, Ev.mouseClick "left", Ev.sleepMs 20,
          Ev.mouseClick "left", Ev.sleepMs 20, Ev.mouseClick "left",
          Ev.setDone, Ev.emitStopped] := by
  have h := (repeat_count_exact
    { AutoInputSettings.default with repeat_mode := "count", repeat_count := 5 }
    0 0 200 5 rfl rfl (by omega) (by decide) (by decide)).1
  exact h

/-! ## Repeat count zero -/

/-- With `rc = 0` the break condition `rc > 0 ∧ count + 1 ≥ rc` never
holds, so with the cancellation flag never set the repeat loop never
terminates (exhausts any fuel). -/
theorem repeatLoop_rc_zero (acts : List Ev) (interval : Nat) :
    ∀ fuel c i, repeatLoop acts interval 0 (fun _ => false) fuel c i = none := by
  intro fuel
  induction fuel with
  | zero => intro c i; rfl
  | succ k ih =>
    intro c i
    unfold repeatLoop
    rw [if_neg (by simp), if_neg (by omega), ih (c + 1) (i + 1)]
    rfl

/-- C10.  Starting with `repeatMode=count` and `repeatCount=0` behaves
exactly as if `repeatMode` were `infinite`: the spawned unit's trace is the
same for every cancellation schedule and fuel budget, and for a
click-repeat or key-repeat run with the cancellation flag never set the
loop never self-terminates on a count — only cancellation ends it. -/
theorem repeat_count_zero_infinite (s : AutoInputSettings) (dx dy : Int)
    (us : Nat) (hmode : s.repeat_mode = "count") (hzero : s.repeat_count = 0) :
    (∀ stop fuel, threadBody s dx dy us stop fuel
        = threadBody { s with repeat_mode := "infinite" } dx dy us stop fuel)
      ∧ (¬(s.action_type ≠ "click" ∧ s.key_mode = "hold") →
          ¬(s.action_type = "click" ∧ s.mouse_mode = "hold") →
          ∀ fuel, threadBody s dx dy us (fun _ => false) fuel = none) := by
  have h1 : effRepeatCount s = 0 := by
    simp [effRepeatCount, hmode, hzero]
  have h2 : effRepeatCount { s with repeat_mode := "infinite" } = 0 := rfl
  have e1 : ({ s with repeat_mode := "infinite" }
      : AutoInputSettings).action_type = s.action_type := rfl
  have e2 : ({ s with repeat_mode := "infinite" }
      : AutoInputSettings).key_mode = s.key_mode := rfl
  have e3 : ({ s with repeat_mode := "infinite" }
      : AutoInputSettings).mouse_mode = s.mouse_mode := rfl
  have e4 : iterBody { s with repeat_mode := "infinite" } = iterBody s := rfl
  have e5 : calc_interval_ms { s with repeat_mode := "infinite" }
      = calc_interval_ms s := rfl
  have e6 : ({ s with repeat_mode := "infinite" }
      : AutoInputSettings).hold_key = s.hold_key := rfl
  have e7 : ({ s with repeat_mode := "infinite" }
      : AutoInputSettings).location_mode = s.location_mode := rfl
  have e8 : ({ s with repeat_mode := "infinite" }
      : AutoInputSettings).fixed_x = s.fixed_x := rfl
  have e9 : ({ s with repeat_mode := "infinite" }
      : AutoInputSettings).fixed_y = s.fixed_y := rfl
  have e10 : ({ s with repeat_mode := "infinite" }
      : AutoInputSettings).mouse_button = s.mouse_button := rfl
  constructor
  · intro stop fuel
    unfold threadBody
    rw [h1, h2, e1, e2, e3, e4, e5, e6, e7, e8, e9, e10]
  · intro hkh hmh fuel
    unfold threadBody
    rw [if_neg hkh, if_neg hmh, h1,
      repeatLoop_rc_zero (iterBody s) (calc_interval_ms s) fuel 0 0]
    rfl

/-- Witness for C10: with `repeatCount=0` under `count` mode, the default
click-repeat settings never self-terminate (fuel 3, never cancelled), and
the whole trace semantics agrees with the `infinite` variant (here at
fuel 5 with cancellation at the third load). -/
theorem repeat_count_zero_infinite_witness :
    threadBody { AutoInputSettings.default with
        repeat_mode := "count", repeat_count := 0 } 0 0 200 (fun _ => false) 3
      = none
      ∧ threadBody { AutoInputSettings.default with
          repeat_mode := "count", repeat_count := 0 } 0 0 200
          (fun k => decide (2 ≤ k)) 5
        = threadBody { AutoInputSettings.default with
            repeat_mode := "infinite", repeat_count := 0 } 0 0 200
            (fun k => decide (2 ≤ k)) 5 := by
  have h := repeat_count_zero_infinite
    { AutoInputSettings.default with repeat_mode := "count", repeat_count := 0 }
    0 0 200 rfl rfl
  exact ⟨h.2 (by decide) (by decide) 3, h.1 (fun k => decide (2 ≤ k)) 5⟩
